import Mathlib

/-!
Shallow embedding of the `renews` NNTP server's relational storage backend
(`src/storage/postgres.rs`, `src/storage/common.rs`) and of the size
validation filter (`src/filters/size.rs`).

The PostgreSQL tables are modelled as Lean lists of rows; each SQL statement
of the source is translated into the corresponding pure list transformation.
`INSERT` appends at the end of the table list, `DELETE ... WHERE p` keeps the
rows not matching `p`, `SELECT ... WHERE p` scans the list.  The `headers TEXT`
column holds `serde_json::to_string(&Headers(..))` in the source and is read
back with `serde_json::from_str`; that external-library round trip is lossless
on an ordered list of string pairs, so the column is modelled as holding the
header list itself.  `chrono::Utc::now().timestamp()` is impure, so the
current timestamp is an explicit parameter of the operations that use it.
Rust `i64` columns are modelled as `Int` with the explicit conversions
(`i64::try_from(..).unwrap_or(..)`) of the source.
-/

namespace Renews

/-- An article: ordered header (name, value) pairs plus a body string
(`Message` in the source, with `SmallVec` modelled as `List`). -/
structure Message where
  headers : List (String × String)
  body : String
deriving DecidableEq

/-- One row of the `messages` table:
`messages(message_id TEXT PRIMARY KEY, headers TEXT, body TEXT, size BIGINT)`. -/
structure MessageRow where
  messageId : String
  headers : List (String × String)
  body : String
  size : Int
deriving DecidableEq

/-- One row of the `group_articles` table:
`group_articles(group_name TEXT, number BIGINT, message_id TEXT, inserted_at BIGINT,
PRIMARY KEY(group_name, number))`. -/
structure GroupArticleRow where
  groupName : String
  number : Int
  messageId : String
  insertedAt : Int
deriving DecidableEq

/-- One row of the `groups` table:
`groups(name TEXT PRIMARY KEY, created_at BIGINT, moderated BOOLEAN)`. -/
structure GroupRow where
  name : String
  createdAt : Int
  moderated : Bool
deriving DecidableEq

/-- The whole database state: the three tables of the schema. -/
structure DB where
  messages : List MessageRow
  groupArticles : List GroupArticleRow
  groups : List GroupRow
deriving DecidableEq

/-- The freshly created database (all three tables empty). -/
def emptyDB : DB := ⟨[], [], []⟩

/-- `u8::to_ascii_lowercase` on an ASCII character (identity elsewhere,
as in Rust, where non-ASCII bytes are left unchanged). -/
def asciiLowerChar (c : Char) : Char :=
  if 'A' ≤ c ∧ c ≤ 'Z' then Char.ofNat (c.toNat + 32) else c

/-- Rust `str::eq_ignore_ascii_case`: equality after ASCII-lowercasing both
sides. -/
def eq_ignore_ascii_case (a b : String) : Bool :=
  a.data.map asciiLowerChar == b.data.map asciiLowerChar

/-- `extract_message_id` from `src/storage/common.rs`: the value of the first
header whose name equals `Message-ID` case-insensitively. -/
def extract_message_id (article : Message) : Option String :=
  article.headers.findSome? fun kv =>
    if eq_ignore_ascii_case kv.1 "Message-ID" then some kv.2 else none

/-- Rust `str::split(',')` on the character list: splits at every comma,
keeping empty pieces. -/
def splitCommaAux : List Char → List Char → List String
  | [], acc => [String.mk acc.reverse]
  | c :: cs, acc =>
      if c = ',' then String.mk acc.reverse :: splitCommaAux cs []
      else splitCommaAux cs (c :: acc)

/-- Rust `str::split(',')` on a string. -/
def splitComma (s : String) : List String :=
  splitCommaAux s.data []

/-- Rust `str::trim`: drop leading and trailing whitespace characters. -/
def rustTrim (s : String) : String :=
  String.mk (((s.data.dropWhile Char.isWhitespace).reverse.dropWhile
    Char.isWhitespace).reverse)

/-- The newsgroup extraction inlined in `store_article`
(`src/storage/postgres.rs` lines 127–138): the first `Newsgroups` header
(case-insensitive), split on commas, each item trimmed, empty items dropped;
no such header yields the empty list. -/
def newsgroupsOf (article : Message) : List String :=
  match article.headers.find? (fun kv => eq_ignore_ascii_case kv.1 "Newsgroups") with
  | some kv => ((splitComma kv.2).map rustTrim).filter (fun s => !s.isEmpty)
  | none => []

/-- SQL `COALESCE(MAX(number), 0)` over a list of values: the maximum, or `0`
when the list is empty. -/
def sqlMaxNumber : List Int → Int
  | [] => 0
  | x :: xs => xs.foldl max x

/-- `SELECT COALESCE(MAX(number),0) FROM group_articles WHERE group_name = g`. -/
def maxNumber (db : DB) (g : String) : Int :=
  sqlMaxNumber ((db.groupArticles.filter (fun r => r.groupName == g)).map
    (fun r => r.number))

/-- `i64::MAX`. -/
def i64Max : Int := 9223372036854775807

/-- `i64::try_from(article.body.len()).unwrap_or(i64::MAX)`: the body's byte
length, saturated at `i64::MAX`. -/
def bodySizeI64 (body : String) : Int :=
  if (body.utf8ByteSize : Int) ≤ i64Max then (body.utf8ByteSize : Int) else i64Max

/-- The `for group in newsgroups` loop of `store_article`: for each group in
order, read `COALESCE(MAX(number),0)+1` for that group and insert the
`group_articles` row `(group, next, msg_id, now)`. -/
def addToGroups (now : Int) (msgId : String) : List String → DB → DB
  | [], db => db
  | g :: rest, db =>
      let row : GroupArticleRow := ⟨g, maxNumber db g + 1, msgId, now⟩
      addToGroups now msgId rest { db with groupArticles := db.groupArticles ++ [row] }

/-- `PostgresStorage::store_article`: reject when no `Message-ID` header is
present; otherwise `INSERT INTO messages ... ON CONFLICT DO NOTHING` (append
the message row unless a row with this `message_id` already exists), then run
the per-group numbering loop over the `Newsgroups` header. -/
def store_article (now : Int) (db : DB) (article : Message) :
    Except String DB :=
  match extract_message_id article with
  | none => .error "missing Message-ID"
  | some msgId =>
      let row : MessageRow :=
        ⟨msgId, article.headers, article.body, bodySizeI64 article.body⟩
      let db1 :=
        if db.messages.any (fun r => r.messageId == msgId) then db
        else { db with messages := db.messages ++ [row] }
      .ok (addToGroups now msgId (newsgroupsOf article) db1)

/-- `PostgresStorage::get_article_by_id`:
`SELECT headers, body FROM messages WHERE message_id = $1`, deserializing the
headers column back into the header list. -/
def get_article_by_id (db : DB) (messageId : String) : Option Message :=
  (db.messages.find? (fun r => r.messageId == messageId)).map
    (fun r => ⟨r.headers, r.body⟩)

/-- `PostgresStorage::get_message_size`:
`SELECT size FROM messages WHERE message_id = $1`, then
`u64::try_from(size).unwrap_or(0)` (negative sizes read as `0`). -/
def get_message_size (db : DB) (messageId : String) : Option Nat :=
  (db.messages.find? (fun r => r.messageId == messageId)).map
    (fun r => if r.size < 0 then 0 else r.size.toNat)

/-- `PostgresStorage::add_group`:
`INSERT INTO groups (name, created_at, moderated) VALUES ($1,$2,$3)
ON CONFLICT DO NOTHING`. -/
def add_group (now : Int) (db : DB) (group : String) (moderated : Bool) : DB :=
  if db.groups.any (fun g => g.name == group) then db
  else { db with groups := db.groups ++ [⟨group, now, moderated⟩] }

/-- `PostgresStorage::is_group_moderated`: the `moderated` flag of the group's
row, `false` when the group does not exist. -/
def is_group_moderated (db : DB) (group : String) : Bool :=
  match db.groups.find? (fun g => g.name == group) with
  | some g => g.moderated
  | none => false

/-- `PostgresStorage::group_exists`: whether a `groups` row with this name
exists. -/
def group_exists (db : DB) (group : String) : Bool :=
  db.groups.any (fun g => g.name == group)

/-- `PostgresStorage::purge_orphan_messages`:
`DELETE FROM messages WHERE message_id NOT IN
(SELECT DISTINCT message_id FROM group_articles)` — keep exactly the messages
still referenced by some `group_articles` row. -/
def purge_orphan_messages (db : DB) : DB :=
  let kept := db.messages.filter
    (fun m => db.groupArticles.any (fun r => r.messageId == m.messageId))
  { db with messages := kept }

/-- `PostgresStorage::remove_group`: delete the group's `group_articles` rows,
then its `groups` row, then all messages no longer referenced by any
`group_articles` row. -/
def remove_group (db : DB) (group : String) : DB :=
  let ga := db.groupArticles.filter (fun r => !(r.groupName == group))
  let db1 := { db with groupArticles := ga }
  let gs := db1.groups.filter (fun g => !(g.name == group))
  let db2 := { db1 with groups := gs }
  let kept := db2.messages.filter
    (fun m => db2.groupArticles.any (fun r => r.messageId == m.messageId))
  { db2 with messages := kept }

/-- `PostgresStorage::delete_article_by_id`:
`DELETE FROM group_articles WHERE message_id = $1`, then
`DELETE FROM messages WHERE message_id = $1 AND NOT EXISTS
(SELECT 1 FROM group_articles WHERE message_id = $1)`. -/
def delete_article_by_id (db : DB) (messageId : String) : DB :=
  let ga := db.groupArticles.filter (fun r => !(r.messageId == messageId))
  let db1 := { db with groupArticles := ga }
  if db1.groupArticles.any (fun r => r.messageId == messageId) then db1
  else
    let kept := db1.messages.filter (fun m => !(m.messageId == messageId))
    { db1 with messages := kept }

/-- `PostgresStorage::purge_group_before`:
`DELETE FROM group_articles WHERE group_name = $1 AND inserted_at < $2`. -/
def purge_group_before (db : DB) (group : String) (ts : Int) : DB :=
  let kept := db.groupArticles.filter
    (fun r => !(r.groupName == group && decide (r.insertedAt < ts)))
  { db with groupArticles := kept }

/-- SQL `ORDER BY` on integers, as insertion sort. -/
def orderedInsert (x : Int) : List Int → List Int
  | [] => [x]
  | y :: ys => if x ≤ y then x :: y :: ys else y :: orderedInsert x ys

/-- SQL `ORDER BY number` ascending over a list of numbers. -/
def sqlOrderBy : List Int → List Int
  | [] => []
  | x :: xs => orderedInsert x (sqlOrderBy xs)

/-- `PostgresStorage::list_article_numbers`:
`SELECT number FROM group_articles WHERE group_name = $1 ORDER BY number`,
each value read back with `u64::try_from(number).unwrap_or(0)`. -/
def list_article_numbers (db : DB) (group : String) : List Nat :=
  (sqlOrderBy ((db.groupArticles.filter (fun r => r.groupName == group)).map
    (fun r => r.number))).map (fun n => if n < 0 then 0 else n.toNat)

/-- Modelled from the spec: `Config::max_size_for_group` lives in
`src/config.rs`, which is not part of the sources; the spec describes it as a
per-group lookup of the configured `max_article_bytes` limit (`None` when no
group-settings pattern matches), so the configuration is modelled as that
lookup function itself. -/
structure Config where
  max_size_for_group : String → Option Nat

/-- Modelled from the spec: `crate::handlers::utils::extract_newsgroups` is
not part of the sources; per the spec the `Newsgroups` header is a
comma-separated list whose items are trimmed of surrounding whitespace and
whose empty entries are dropped — exactly the extraction inlined in
`store_article`, so it is defined as that function. -/
def extract_newsgroups (article : Message) : List String :=
  newsgroupsOf article

/-- The `for group in &newsgroups` loop of `SizeFilter::validate`: fail with
`article too large for group G` at the first group with a configured limit
strictly below `size`. -/
def sizeCheckGroups (cfg : Config) (size : Nat) : List String → Except String Unit
  | [] => .ok ()
  | g :: rest =>
      match cfg.max_size_for_group g with
      | some maxSize =>
          if size > maxSize then .error ("article too large for group " ++ g)
          else sizeCheckGroups cfg size rest
      | none => sizeCheckGroups cfg size rest

/-- `SizeFilter::validate` from `src/filters/size.rs`: extract the newsgroups
and check the configured size limit of each. -/
def sizeFilterValidate (cfg : Config) (article : Message) (size : Nat) :
    Except String Unit :=
  sizeCheckGroups cfg size (extract_newsgroups article)

/-- The article numbers currently assigned within a group, in row-insertion
order (rows are only ever appended at the end of the table). -/
def groupNumbers (db : DB) (g : String) : List Int :=
  (db.groupArticles.filter (fun r => r.groupName == g)).map (fun r => r.number)

/-- The per-group numbering invariant: numbers in insertion order are
strictly increasing (hence pairwise distinct, and every insert exceeds all
earlier ones), strictly positive, and the first one assigned is `1`. -/
def NumInv (db : DB) (g : String) : Prop :=
  List.Pairwise (· < ·) (groupNumbers db g) ∧
  (∀ n ∈ groupNumbers db g, 1 ≤ n) ∧
  (groupNumbers db g = [] ∨ (groupNumbers db g).head? = some 1)

/-- Run a sequence of `store_article` calls one after another, each with its
own `now` timestamp, stopping at the first error. -/
def applyStores (db : DB) : List (Int × Message) → Except String DB
  | [] => .ok db
  | (now, m) :: rest =>
      match store_article now db m with
      | .ok db' => applyStores db' rest
      | .error e => .error e

/-- A sample article posted to `misc.test`. -/
def mTest : Message :=
  ⟨[("Message-ID", "<1@test>"), ("Newsgroups", "misc.test")], "b"⟩

/-- The database after storing `mTest` once into the empty database. -/
def dbOnce : DB :=
  match store_article 0 emptyDB mTest with
  | .ok d => d
  | .error _ => emptyDB

/-- The database after storing `mTest` a second time. -/
def dbTwice : DB :=
  match store_article 0 dbOnce mTest with
  | .ok d => d
  | .error _ => emptyDB

/-- An article with Message-ID `<d@test>` and body `first`. -/
def mFirst : Message :=
  ⟨[("Message-ID", "<d@test>"), ("Newsgroups", "misc.test")], "first"⟩

/-- A different article reusing Message-ID `<d@test>`, body `second`. -/
def mSecond : Message :=
  ⟨[("Message-ID", "<d@test>"), ("Newsgroups", "misc.test")], "second"⟩

/-- The database after storing `mFirst` into the empty database. -/
def dbFirst : DB :=
  match store_article 0 emptyDB mFirst with
  | .ok d => d
  | .error _ => emptyDB

/-- The database after additionally storing `mSecond` (same Message-ID). -/
def dbSecond : DB :=
  match store_article 0 dbFirst mSecond with
  | .ok d => d
  | .error _ => emptyDB

/-- An article with no `Message-ID` header at all. -/
def mNoId : Message := ⟨[("Newsgroups", "misc.test")], "hello"⟩

/-- A two-store trace used to exercise the numbering invariant. -/
def twoStores : List (Int × Message) := [(5, mTest), (7, mTest)]

/-- The database reached by `twoStores` from the empty database. -/
def dbTwoStores : DB :=
  match applyStores emptyDB twoStores with
  | .ok d => d
  | .error _ => emptyDB

end Renews

deriving instance DecidableEq for Except

namespace Renews

theorem addToGroups_messages (now : Int) (id : String) :
    ∀ (gs : List String) (db : DB), (addToGroups now id gs db).messages = db.messages := by
  intro gs
  induction gs with
  | nil => intro db; rfl
  | cons g rest ih => intro db; exact ih _

theorem addToGroups_groups (now : Int) (id : String) :
    ∀ (gs : List String) (db : DB), (addToGroups now id gs db).groups = db.groups := by
  intro gs
  induction gs with
  | nil => intro db; rfl
  | cons g rest ih => intro db; exact ih _

theorem addToGroups_suffix (now : Int) (id : String) :
    ∀ (gs : List String) (db : DB), ∃ suffix : List GroupArticleRow,
      (addToGroups now id gs db).groupArticles = db.groupArticles ++ suffix ∧
      suffix.map (fun r => r.groupName) = gs ∧
      ∀ r ∈ suffix, r.messageId = id := by
  intro gs
  induction gs with
  | nil => intro db; exact ⟨[], by simp [addToGroups], rfl, by simp⟩
  | cons g rest ih =>
      intro db
      obtain ⟨s, hs, hmap, hid⟩ :=
        ih { db with groupArticles :=
          db.groupArticles ++ [⟨g, maxNumber db g + 1, id, now⟩] }
      refine ⟨⟨g, maxNumber db g + 1, id, now⟩ :: s, ?_, ?_, ?_⟩
      · simpa [addToGroups, List.append_assoc] using hs
      · simp [hmap]
      · intro r hr
        cases hr with
        | head => rfl
        | tail _ h => exact hid r h

theorem get_article_by_id_none_of (db : DB) (id : String)
    (h : ∀ m ∈ db.messages, (m.messageId == id) = false) :
    get_article_by_id db id = none := by
  unfold get_article_by_id
  rw [Option.map_eq_none', List.find?_eq_none]
  intro x hx
  simp [h x hx]

/-- C10: `add_group` on an existing group is a no-op (`ON CONFLICT DO
NOTHING`): a second `add_group` with any timestamp and any moderated flag
leaves the database exactly as after the first, so the original `created_at`
and `moderated` values survive and no second row appears. -/
theorem add_group_idempotent (now now' : Int) (db : DB) (g : String) (m m' : Bool) :
    add_group now' (add_group now db g m) g m' = add_group now db g m := by
  by_cases h : db.groups.any (fun r => r.name == g) = true
  · have h1 : add_group now db g m = db := by simp [add_group, h]
    rw [h1]
    simp [add_group, h]
  · have h1 : add_group now db g m =
        { db with groups := db.groups ++ [⟨g, now, m⟩] } := by
      simp [add_group, h]
    have h2 : (({ db with groups := db.groups ++ [⟨g, now, m⟩] } : DB)).groups.any
        (fun r => r.name == g) = true := by
      simp [List.any_append]
    rw [h1]
    simp [add_group, h2]

/-- C8: `purge_group_before` leaves the `messages` and `groups` tables
untouched, removes no `group_articles` row outside group `g`'s
older-than-`ts` rows, and a row of the original table survives exactly when
it is not a row of `g` with `inserted_at < ts`. -/
theorem purge_group_before_frame (db : DB) (g : String) (ts : Int) :
    (purge_group_before db g ts).messages = db.messages ∧
    (purge_group_before db g ts).groups = db.groups ∧
    List.Sublist (purge_group_before db g ts).groupArticles db.groupArticles ∧
    ∀ r ∈ db.groupArticles,
      (r ∈ (purge_group_before db g ts).groupArticles ↔
        ¬(r.groupName = g ∧ r.insertedAt < ts)) := by
  refine ⟨rfl, rfl, List.filter_sublist _, ?_⟩
  intro r hr
  constructor
  · intro hmem hcon
    have hp := (List.mem_filter.mp hmem).2
    simp [hcon.1, hcon.2] at hp
  · intro hn
    refine List.mem_filter.mpr ⟨hr, ?_⟩
    simp only [not_and] at hn
    simp
    by_cases hg : r.groupName = g
    · exact Or.inr (not_lt.mp (hn hg))
    · exact Or.inl hg

/-- C5: an article with no header named `Message-ID` (case-insensitively) is
rejected with `missing Message-ID`; the rejection happens before any SQL
statement runs, so no row of any table is created. -/
theorem store_article_missing_message_id (now : Int) (db : DB) (m : Message)
    (h : ∀ kv ∈ m.headers, eq_ignore_ascii_case kv.1 "Message-ID" = false) :
    store_article now db m = .error "missing Message-ID" := by
  have hid : extract_message_id m = none := by
    apply List.findSome?_eq_none_iff.mpr
    intro kv hkv
    simp [extract_message_id, h kv hkv]
  simp [store_article, hid]

theorem store_article_missing_message_id_witness :
    (∀ kv ∈ mNoId.headers, eq_ignore_ascii_case kv.1 "Message-ID" = false) ∧
    store_article 0 emptyDB mNoId = .error "missing Message-ID" :=
  ⟨by decide, store_article_missing_message_id 0 emptyDB mNoId (by decide)⟩

theorem delete_article_groupArticles (db : DB) (id : String) :
    (delete_article_by_id db id).groupArticles =
      db.groupArticles.filter (fun r => !(r.messageId == id)) := by
  unfold delete_article_by_id
  dsimp only
  split
  · rfl
  · rfl

theorem delete_article_messages (db : DB) (id : String) :
    (delete_article_by_id db id).messages =
      db.messages.filter (fun m => !(m.messageId == id)) := by
  have hany : (db.groupArticles.filter (fun r => !(r.messageId == id))).any
      (fun r => r.messageId == id) = false := by
    apply List.any_eq_false.mpr
    intro r hr
    have hp := (List.mem_filter.mp hr).2
    simp at hp
    simp [hp]
  unfold delete_article_by_id
  simp [hany]

/-- C6: after `delete_article_by_id id` no `group_articles` row references
`id` any more (the delete removes them all and then the message row itself,
since nothing references it), so `get_article_by_id id` is already `none`,
and it stays `none` after `purge_orphan_messages`. -/
theorem delete_then_purge_absent (db : DB) (id : String) :
    (∀ r ∈ (delete_article_by_id db id).groupArticles, r.messageId ≠ id) ∧
    get_article_by_id (delete_article_by_id db id) id = none ∧
    get_article_by_id (purge_orphan_messages (delete_article_by_id db id)) id = none := by
  refine ⟨?_, ?_, ?_⟩
  · intro r hr
    rw [delete_article_groupArticles] at hr
    have hp := (List.mem_filter.mp hr).2
    simpa using hp
  · apply get_article_by_id_none_of
    intro m hm
    rw [delete_article_messages] at hm
    have hp := (List.mem_filter.mp hm).2
    simpa using hp
  · apply get_article_by_id_none_of
    intro m hm
    have hm2 := (List.mem_filter.mp hm).1
    rw [delete_article_messages] at hm2
    have hp := (List.mem_filter.mp hm2).2
    simpa using hp

theorem remove_group_groupArticles (db : DB) (g : String) :
    (remove_group db g).groupArticles =
      db.groupArticles.filter (fun r => !(r.groupName == g)) := rfl

theorem remove_group_messages (db : DB) (g : String) :
    (remove_group db g).messages = db.messages.filter
      (fun m => (db.groupArticles.filter (fun r => !(r.groupName == g))).any
        (fun r => r.messageId == m.messageId)) := rfl

/-- C7: after `remove_group g` the group lists no article numbers, and every
surviving message is still referenced by a `group_articles` row of some other
group — equivalently, every message that was referenced only by rows of `g`
(or by nothing) has been removed by the inlined orphan purge. -/
theorem remove_group_spec (db : DB) (g : String) :
    list_article_numbers (remove_group db g) g = [] ∧
    ∀ mr ∈ (remove_group db g).messages,
      ∃ r ∈ db.groupArticles, r.messageId = mr.messageId ∧ r.groupName ≠ g := by
  constructor
  · have hnil : (remove_group db g).groupArticles.filter
        (fun r => r.groupName == g) = [] := by
      rw [remove_group_groupArticles]
      apply List.filter_eq_nil_iff.mpr
      intro r hr
      have hp := (List.mem_filter.mp hr).2
      simp at hp
      simp [hp]
    simp [list_article_numbers, hnil, sqlOrderBy]
  · intro mr hmr
    rw [remove_group_messages] at hmr
    obtain ⟨hmem, hany⟩ := List.mem_filter.mp hmr
    obtain ⟨r, hr, hbeq⟩ := List.any_eq_true.mp hany
    obtain ⟨hrmem, hrg⟩ := List.mem_filter.mp hr
    refine ⟨r, hrmem, ?_, ?_⟩
    · exact beq_iff_eq.mp hbeq
    · simpa using hrg

theorem store_article_fresh (now : Int) (db : DB) (m : Message) (id : String)
    (h1 : extract_message_id m = some id)
    (hany : db.messages.any (fun r => r.messageId == id) = false) :
    store_article now db m = .ok (addToGroups now id (newsgroupsOf m)
      { db with messages := db.messages ++
        [⟨id, m.headers, m.body, bodySizeI64 m.body⟩] }) := by
  unfold store_article
  rw [h1]
  simp [hany]

theorem store_article_existing (now : Int) (db : DB) (m : Message) (id : String)
    (h1 : extract_message_id m = some id)
    (hany : db.messages.any (fun r => r.messageId == id) = true) :
    store_article now db m = .ok (addToGroups now id (newsgroupsOf m) db) := by
  unfold store_article
  rw [h1]
  simp [hany]

/-- C1 (counterexample): re-storing `mTest` — already a member of
`misc.test` — succeeds but appends a second `group_articles` row for
`misc.test`, while the claim says a group already containing the message
gains no additional row. -/
theorem store_article_duplicate_membership :
    store_article 0 dbOnce mTest = .ok dbTwice ∧
    (dbOnce.groupArticles.filter
      (fun r => r.groupName == "misc.test" && r.messageId == "<1@test>")).length = 1 ∧
    (dbTwice.groupArticles.filter
      (fun r => r.groupName == "misc.test" && r.messageId == "<1@test>")).length = 2 := by
  decide

/-- C1 (amended): re-storing a message whose id is already present succeeds,
leaves the `messages` table unchanged, and appends one new `group_articles`
row for every group listed in the `Newsgroups` header — regardless of
whether the group already contains the message. -/
theorem store_article_reinsert (now : Int) (db : DB) (m : Message) (id : String)
    (h1 : extract_message_id m = some id)
    (h2 : db.messages.any (fun r => r.messageId == id) = true) :
    ∃ db' suffix, store_article now db m = .ok db' ∧
      db'.messages = db.messages ∧
      db'.groupArticles = db.groupArticles ++ suffix ∧
      suffix.map (fun r => r.groupName) = newsgroupsOf m ∧
      ∀ r ∈ suffix, r.messageId = id := by
  obtain ⟨s, hs, hmap, hid⟩ := addToGroups_suffix now id (newsgroupsOf m) db
  exact ⟨addToGroups now id (newsgroupsOf m) db, s,
    store_article_existing now db m id h1 h2,
    addToGroups_messages now id (newsgroupsOf m) db, hs, hmap, hid⟩

theorem store_article_reinsert_witness :
    (extract_message_id mTest = some "<1@test>" ∧
     dbOnce.messages.any (fun r => r.messageId == "<1@test>") = true) ∧
    (∃ db' suffix, store_article 3 dbOnce mTest = .ok db' ∧
      db'.messages = dbOnce.messages ∧
      db'.groupArticles = dbOnce.groupArticles ++ suffix ∧
      suffix.map (fun r => r.groupName) = newsgroupsOf mTest ∧
      ∀ r ∈ suffix, r.messageId = "<1@test>") :=
  ⟨⟨by decide, by decide⟩,
   store_article_reinsert 3 dbOnce mTest "<1@test>" (by decide) (by decide)⟩

/-- C4 (counterexample): storing `mSecond` succeeds although its Message-ID
is already taken by `mFirst` (idempotent insert), and `get_article_by_id`
then returns `mFirst`, whose body differs from `mSecond`'s — so the claim's
unconditional round trip fails for `mSecond`. -/
theorem get_article_by_id_stale_on_duplicate :
    store_article 0 dbFirst mSecond = .ok dbSecond ∧
    get_article_by_id dbSecond "<d@test>" = some mFirst ∧
    mFirst.body = "first" ∧ mSecond.body = "second" := by
  decide

/-- C4 (amended): when no message with the id is stored yet, a successful
`store_article` followed by `get_article_by_id` returns exactly the stored
message: the same body and the same header list in the same order. -/
theorem store_article_roundtrip (now : Int) (db : DB) (m : Message) (id : String)
    (db' : DB)
    (h1 : extract_message_id m = some id)
    (h0 : get_article_by_id db id = none)
    (h2 : store_article now db m = .ok db') :
    get_article_by_id db' id = some m := by
  unfold get_article_by_id at h0
  rw [Option.map_eq_none', List.find?_eq_none] at h0
  have hany : db.messages.any (fun r => r.messageId == id) = false :=
    List.any_eq_false.mpr h0
  rw [store_article_fresh now db m id h1 hany] at h2
  injection h2 with h2
  subst h2
  unfold get_article_by_id
  rw [addToGroups_messages, List.find?_append, List.find?_eq_none.mpr h0]
  simp [List.find?]

theorem store_article_roundtrip_witness :
    (extract_message_id mFirst = some "<d@test>" ∧
     get_article_by_id emptyDB "<d@test>" = none ∧
     store_article 0 emptyDB mFirst = .ok dbFirst) ∧
    get_article_by_id dbFirst "<d@test>" = some mFirst :=
  ⟨⟨by decide, by decide, by decide⟩,
   store_article_roundtrip 0 emptyDB mFirst "<d@test>" dbFirst
     (by decide) (by decide) (by decide)⟩

/-- C9 (counterexample): after `mSecond` is successfully stored over the
existing id, `get_message_size` still reports the byte length of `mFirst`'s
body (5), not of `mSecond`'s 6-byte body — the claim's unconditional
statement fails for `mSecond`. -/
theorem get_message_size_stale_on_duplicate :
    store_article 0 dbFirst mSecond = .ok dbSecond ∧
    get_message_size dbSecond "<d@test>" = some 5 ∧
    mSecond.body.utf8ByteSize = 6 := by
  decide

/-- C9 (amended): when no message with the id is stored yet (and the body is
not absurdly over `i64::MAX` bytes), after a successful `store_article` the
stored size returned by `get_message_size` is the byte length of the body —
the wire size handed to the validation filters plays no part in it. -/
theorem get_message_size_body_length (now : Int) (db : DB) (m : Message)
    (id : String) (db' : DB)
    (h1 : extract_message_id m = some id)
    (h0 : get_article_by_id db id = none)
    (hlen : (m.body.utf8ByteSize : Int) ≤ i64Max)
    (h2 : store_article now db m = .ok db') :
    get_message_size db' id = some m.body.utf8ByteSize := by
  unfold get_article_by_id at h0
  rw [Option.map_eq_none', List.find?_eq_none] at h0
  have hany : db.messages.any (fun r => r.messageId == id) = false :=
    List.any_eq_false.mpr h0
  rw [store_article_fresh now db m id h1 hany] at h2
  injection h2 with h2
  subst h2
  unfold get_message_size
  rw [addToGroups_messages, List.find?_append, List.find?_eq_none.mpr h0]
  simp [List.find?, bodySizeI64, hlen]

theorem get_message_size_body_length_witness :
    (extract_message_id mFirst = some "<d@test>" ∧
     get_article_by_id emptyDB "<d@test>" = none ∧
     ((mFirst.body.utf8ByteSize : Int) ≤ i64Max) ∧
     store_article 0 emptyDB mFirst = .ok dbFirst) ∧
    get_message_size dbFirst "<d@test>" = some mFirst.body.utf8ByteSize :=
  ⟨⟨by decide, by decide, by decide, by decide⟩,
   get_message_size_body_length 0 emptyDB mFirst "<d@test>" dbFirst
     (by decide) (by decide) (by decide) (by decide)⟩

theorem le_foldl_max : ∀ (l : List Int) (a : Int), a ≤ l.foldl max a := by
  intro l
  induction l with
  | nil => intro a; exact le_refl a
  | cons x xs ih => intro a; exact le_trans (le_max_left a x) (ih (max a x))

theorem mem_le_foldl_max : ∀ (l : List Int) (a x : Int), x ∈ l → x ≤ l.foldl max a := by
  intro l
  induction l with
  | nil => intro a x h; cases h
  | cons y ys ih =>
      intro a x h
      rcases List.mem_cons.mp h with h1 | h2
      · rw [h1]; exact le_trans (le_max_right a y) (le_foldl_max ys (max a y))
      · exact ih (max a y) x h2

theorem le_sqlMaxNumber (l : List Int) (x : Int) (h : x ∈ l) : x ≤ sqlMaxNumber l := by
  cases l with
  | nil => cases h
  | cons y ys =>
      rcases List.mem_cons.mp h with h1 | h2
      · rw [h1]; exact le_foldl_max ys y
      · exact mem_le_foldl_max ys y x h2

theorem sqlMaxNumber_nonneg (l : List Int) (h : ∀ x ∈ l, 1 ≤ x) :
    0 ≤ sqlMaxNumber l := by
  cases l with
  | nil => exact le_refl 0
  | cons y ys =>
      have h1 : 1 ≤ y := h y (List.mem_cons_self y ys)
      exact le_trans (by omega) (le_foldl_max ys y)

theorem maxNumber_eq (db : DB) (g : String) :
    maxNumber db g = sqlMaxNumber (groupNumbers db g) := rfl

theorem groupNumbers_append_row (db : DB) (g : String) (r : GroupArticleRow) :
    groupNumbers { db with groupArticles := db.groupArticles ++ [r] } g =
      groupNumbers db g ++ (if r.groupName == g then [r.number] else []) := by
  unfold groupNumbers
  rw [List.filter_append]
  rw [List.map_append]
  by_cases h : (r.groupName == g) = true
  · simp [List.filter, h]
  · simp [List.filter, h]

theorem groupNumbers_append_row_self (db : DB) (g : String) (n : Int)
    (id : String) (now : Int) :
    groupNumbers { db with groupArticles := db.groupArticles ++ [⟨g, n, id, now⟩] } g =
      groupNumbers db g ++ [n] := by
  rw [groupNumbers_append_row]
  simp

theorem groupNumbers_append_row_other (db : DB) (g g' : String)
    (h : (g' == g) = false) (n : Int) (id : String) (now : Int) :
    groupNumbers { db with groupArticles := db.groupArticles ++ [⟨g', n, id, now⟩] } g =
      groupNumbers db g := by
  rw [groupNumbers_append_row]
  simp [h]

theorem numInv_insert (db : DB) (g : String) (h : NumInv db g)
    (g' id : String) (now : Int) :
    NumInv { db with groupArticles :=
      db.groupArticles ++ [⟨g', maxNumber db g' + 1, id, now⟩] } g := by
  obtain ⟨hpw, hpos, hhead⟩ := h
  by_cases hg : (g' == g) = true
  · have hgg : g' = g := beq_iff_eq.mp hg
    subst hgg
    have hga := groupNumbers_append_row_self db g' (maxNumber db g' + 1) id now
    have hmax : ∀ x ∈ groupNumbers db g', x ≤ maxNumber db g' := by
      intro x hx
      rw [maxNumber_eq]
      exact le_sqlMaxNumber (groupNumbers db g') x hx
    refine ⟨?_, ?_, ?_⟩
    · rw [hga]
      rw [List.pairwise_append]
      refine ⟨hpw, List.pairwise_singleton _ _, ?_⟩
      intro a ha b hb
      rw [List.mem_singleton] at hb
      subst hb
      have := hmax a ha
      omega
    · rw [hga]
      intro n hn
      rw [List.mem_append] at hn
      cases hn with
      | inl hl => exact hpos n hl
      | inr hr =>
          rw [List.mem_singleton] at hr
          subst hr
          have h0 : 0 ≤ maxNumber db g' := by
            rw [maxNumber_eq]
            exact sqlMaxNumber_nonneg _ hpos
          omega
    · rw [hga]
      cases hhead with
      | inl hnil =>
          rw [hnil]
          right
          have hz : maxNumber db g' = 0 := by
            rw [maxNumber_eq, hnil]
            rfl
          simp [hz]
      | inr hsome =>
          right
          rw [List.head?_append, hsome]
          rfl
  · have hgf : (g' == g) = false := by
      cases hb : (g' == g) with
      | false => rfl
      | true => exact absurd hb hg
    have hga := groupNumbers_append_row_other db g g' hgf
      (maxNumber db g' + 1) id now
    exact ⟨hga ▸ hpw, hga ▸ hpos, hga ▸ hhead⟩

theorem numInv_addToGroups (now : Int) (id : String) (g : String) :
    ∀ (gs : List String) (db : DB), NumInv db g →
      NumInv (addToGroups now id gs db) g := by
  intro gs
  induction gs with
  | nil => intro db h; exact h
  | cons g' rest ih =>
      intro db h
      exact ih _ (numInv_insert db g h g' id now)

theorem groupNumbers_messages_update (db : DB) (ms : List MessageRow) (g : String) :
    groupNumbers { db with messages := ms } g = groupNumbers db g := rfl

theorem numInv_store (now : Int) (m : Message) (db db' : DB) (g : String)
    (h : store_article now db m = .ok db') (hinv : NumInv db g) : NumInv db' g := by
  unfold store_article at h
  cases hx : extract_message_id m with
  | none => rw [hx] at h; cases h
  | some id =>
      rw [hx] at h
      dsimp only at h
      injection h with h
      subst h
      apply numInv_addToGroups
      split
      · exact hinv
      · exact hinv

theorem numInv_applyStores :
    ∀ (ops : List (Int × Message)) (db db' : DB) (g : String),
      applyStores db ops = .ok db' → NumInv db g → NumInv db' g := by
  intro ops
  induction ops with
  | nil =>
      intro db db' g h hinv
      injection h with h
      subst h
      exact hinv
  | cons op rest ih =>
      intro db db' g h hinv
      unfold applyStores at h
      cases hs : store_article op.1 db op.2 with
      | ok db1 =>
          rw [hs] at h
          exact ih db1 db' g h (numInv_store op.1 op.2 db db1 g hs hinv)
      | error e => rw [hs] at h; cases h

/-- C3: along any sequence of successful `store_article` calls from the empty
database, the numbers assigned within any group `g` (in insertion order) are
strictly positive, pairwise distinct, begin at `1`, and strictly increase —
each insert into `g` gets a number greater than every earlier one in `g`. -/
theorem store_article_numbering (ops : List (Int × Message)) (g : String) (db : DB)
    (h : applyStores emptyDB ops = .ok db) :
    (∀ n ∈ groupNumbers db g, 1 ≤ n) ∧
    (groupNumbers db g).Nodup ∧
    (groupNumbers db g = [] ∨ (groupNumbers db g).head? = some 1) ∧
    List.Pairwise (· < ·) (groupNumbers db g) := by
  have hinv : NumInv emptyDB g := by
    refine ⟨List.Pairwise.nil, ?_, Or.inl rfl⟩
    intro n hn
    cases hn
  obtain ⟨hpw, hpos, hhead⟩ := numInv_applyStores ops emptyDB db g h hinv
  exact ⟨hpos, hpw.imp (fun hab => ne_of_lt hab), hhead, hpw⟩

theorem store_article_numbering_witness :
    (applyStores emptyDB twoStores = .ok dbTwoStores) ∧
    ((∀ n ∈ groupNumbers dbTwoStores "misc.test", 1 ≤ n) ∧
     (groupNumbers dbTwoStores "misc.test").Nodup ∧
     (groupNumbers dbTwoStores "misc.test" = [] ∨
       (groupNumbers dbTwoStores "misc.test").head? = some 1) ∧
     List.Pairwise (· < ·) (groupNumbers dbTwoStores "misc.test")) :=
  ⟨by decide, store_article_numbering twoStores "misc.test" dbTwoStores (by decide)⟩

theorem sizeCheck_ok_iff (cfg : Config) (s : Nat) :
    ∀ gs : List String, (sizeCheckGroups cfg s gs = .ok () ↔
      ∀ g ∈ gs, ∀ L, cfg.max_size_for_group g = some L → s ≤ L) := by
  intro gs
  induction gs with
  | nil => simp [sizeCheckGroups]
  | cons g rest ih =>
      cases hc : cfg.max_size_for_group g with
      | none =>
          rw [show sizeCheckGroups cfg s (g :: rest) = sizeCheckGroups cfg s rest by
            simp [sizeCheckGroups, hc]]
          rw [ih]
          constructor
          · intro h g' hg' L hL
            rcases List.mem_cons.mp hg' with h1 | h2
            · rw [h1, hc] at hL; cases hL
            · exact h g' h2 L hL
          · intro h g' hg' L hL
            exact h g' (List.mem_cons_of_mem g hg') L hL
      | some L0 =>
          by_cases hs : s > L0
          · rw [show sizeCheckGroups cfg s (g :: rest) =
                .error ("article too large for group " ++ g) by
              simp [sizeCheckGroups, hc, hs]]
            constructor
            · intro h; cases h
            · intro h
              have := h g (List.mem_cons_self g rest) L0 hc
              omega
          · rw [show sizeCheckGroups cfg s (g :: rest) = sizeCheckGroups cfg s rest by
              simp [sizeCheckGroups, hc, hs]]
            rw [ih]
            constructor
            · intro h g' hg' L hL
              rcases List.mem_cons.mp hg' with h1 | h2
              · rw [h1, hc] at hL
                injection hL with hL
                omega
              · exact h g' h2 L hL
            · intro h g' hg' L hL
              exact h g' (List.mem_cons_of_mem g hg') L hL

theorem sizeCheck_error (cfg : Config) (s : Nat) :
    ∀ (gs : List String) (e : String), sizeCheckGroups cfg s gs = .error e →
      ∃ g, g ∈ gs ∧ ∃ L, cfg.max_size_for_group g = some L ∧ L < s ∧
        e = "article too large for group " ++ g := by
  intro gs
  induction gs with
  | nil => intro e h; cases h
  | cons g rest ih =>
      intro e h
      cases hc : cfg.max_size_for_group g with
      | none =>
          have h' : sizeCheckGroups cfg s rest = .error e := by
            simpa [sizeCheckGroups, hc] using h
          obtain ⟨g', hg', L, hL, hlt, he⟩ := ih e h'
          exact ⟨g', List.mem_cons_of_mem g hg', L, hL, hlt, he⟩
      | some L0 =>
          by_cases hs : s > L0
          · have he : "article too large for group " ++ g = e := by
              simpa [sizeCheckGroups, hc, hs] using h
            exact ⟨g, List.mem_cons_self g rest, L0, hc, by omega, he.symm⟩
          · have h' : sizeCheckGroups cfg s rest = .error e := by
              simpa [sizeCheckGroups, hc, hs] using h
            obtain ⟨g', hg', L, hL, hlt, he⟩ := ih e h'
            exact ⟨g', List.mem_cons_of_mem g hg', L, hL, hlt, he⟩

theorem sizeCheck_exceed (cfg : Config) (s : Nat) :
    ∀ gs : List String,
      (∃ g, g ∈ gs ∧ ∃ L, cfg.max_size_for_group g = some L ∧ L < s) →
      ∃ g, g ∈ gs ∧ ∃ L, cfg.max_size_for_group g = some L ∧ L < s ∧
        sizeCheckGroups cfg s gs = .error ("article too large for group " ++ g) := by
  intro gs
  induction gs with
  | nil =>
      intro h
      obtain ⟨g, hg, _⟩ := h
      cases hg
  | cons g rest ih =>
      intro h
      cases hc : cfg.max_size_for_group g with
      | some L0 =>
          by_cases hs : s > L0
          · refine ⟨g, List.mem_cons_self g rest, L0, hc, by omega, ?_⟩
            simp [sizeCheckGroups, hc, hs]
          · obtain ⟨g', hg', L, hL, hlt⟩ := h
            have hg2 : g' ∈ rest := by
              rcases List.mem_cons.mp hg' with h1 | h2
              · exfalso
                rw [h1, hc] at hL
                injection hL with hL
                omega
              · exact h2
            obtain ⟨g3, hg3, L3, hL3, hlt3, herr⟩ := ih ⟨g', hg2, L, hL, hlt⟩
            refine ⟨g3, List.mem_cons_of_mem g hg3, L3, hL3, hlt3, ?_⟩
            simpa [sizeCheckGroups, hc, hs] using herr
      | none =>
          obtain ⟨g', hg', L, hL, hlt⟩ := h
          have hg2 : g' ∈ rest := by
            rcases List.mem_cons.mp hg' with h1 | h2
            · exfalso
              rw [h1, hc] at hL
              cases hL
            · exact h2
          obtain ⟨g3, hg3, L3, hL3, hlt3, herr⟩ := ih ⟨g', hg2, L, hL, hlt⟩
          refine ⟨g3, List.mem_cons_of_mem g hg3, L3, hL3, hlt3, ?_⟩
          simpa [sizeCheckGroups, hc] using herr

/-- C2: `SizeFilter::validate` succeeds exactly when no group listed in the
`Newsgroups` header has a configured limit strictly below the wire size `s`
(in particular when no limit is set, or when `s` equals every limit); every
failure carries the message `article too large for group G` for some listed
group `G` whose limit is strictly exceeded, and whenever some listed group's
limit is strictly exceeded the result is such a failure. -/
theorem sizeFilter_validate_spec (cfg : Config) (article : Message) (s : Nat) :
    (sizeFilterValidate cfg article s = .ok () ↔
      ∀ g ∈ extract_newsgroups article, ∀ L,
        cfg.max_size_for_group g = some L → s ≤ L) ∧
    (∀ e, sizeFilterValidate cfg article s = .error e →
      ∃ g, g ∈ extract_newsgroups article ∧ ∃ L,
        cfg.max_size_for_group g = some L ∧ L < s ∧
        e = "article too large for group " ++ g) ∧
    ((∃ g, g ∈ extract_newsgroups article ∧ ∃ L,
        cfg.max_size_for_group g = some L ∧ L < s) →
      ∃ g, g ∈ extract_newsgroups article ∧ ∃ L,
        cfg.max_size_for_group g = some L ∧ L < s ∧
        sizeFilterValidate cfg article s =
          .error ("article too large for group " ++ g)) :=
  ⟨sizeCheck_ok_iff cfg s (extract_newsgroups article),
   fun e => sizeCheck_error cfg s (extract_newsgroups article) e,
   sizeCheck_exceed cfg s (extract_newsgroups article)⟩

end Renews
